import Mathlib

/-!
Verification of the StudyApp (SC-200 quiz) core logic: a shallow embedding of
the answer-normalization, answer-matching, session scoring, persistence-set
update and question-pool building code of quiz_app.py, with theorems checking
the natural-language specification against that code.

Modelling conventions:

* The raw JSON answer field is modelled by PyVal: either a scalar (Python
  None, str, int) or a flat list of scalars.

* Python set values are modelled either as Finset (for letter sets, where only
  membership matters) or, where the code iterates over a set (the display join
  in the fallback path of is_mc_selection_correct), as a duplicate-free list.
  CPython iterates a set in an implementation-defined, hash-dependent order;
  the model fixes one enumeration of the set.

* Operations that can raise a Python exception (list indexing, str.join over
  possibly non-string elements) return Option; a result of Option.none models
  the exception (IndexError / TypeError).

* str.strip / str.upper are modelled for the ASCII strings this data uses
  (String.trim / Char.toUpper), matching Python on ASCII.
-/

/-- A Python scalar as it occurs in the answer field of a question record:
None, a string, or a non-string scalar (represented by int). -/
inductive PyScalar where
  | none
  | str (s : String)
  | int (n : Int)
deriving DecidableEq

/-- A Python answer value: a scalar or a flat list of scalars.  Mirrors the
shapes the quiz code distinguishes with isinstance(answer, (list, tuple, set)). -/
inductive PyVal where
  | scalar (v : PyScalar)
  | list (xs : List PyScalar)
deriving DecidableEq

/-- Python str() on a scalar. -/
def pyStr : PyScalar → String
  | PyScalar.none => "None"
  | PyScalar.str s => s
  | PyScalar.int n => toString n

/-- Python str.strip() (ASCII whitespace). -/
def pyStrip (s : String) : String :=
  String.mk (((s.toList.dropWhile Char.isWhitespace).reverse.dropWhile
    Char.isWhitespace).reverse)

/-- Python str.upper() (ASCII). -/
def pyUpper (s : String) : String := String.mk (s.toList.map Char.toUpper)

/-- s[0] of a non-empty string (a default for the empty string, on which the
code never evaluates it). -/
def strHead (s : String) : Char := s.toList.headD ' '

/-- Python sep.join(parts) over strings. -/
def joinSep (sep : String) : List String → String
  | [] => ""
  | [x] => x
  | x :: y :: xs => x ++ sep ++ joinSep sep (y :: xs)

/-- s.split()[0] for a stripped non-empty string: the maximal prefix of
non-whitespace characters. -/
def firstWord (s : String) : String :=
  String.mk (s.toList.takeWhile (fun c => !c.isWhitespace))

/-- Python s.rstrip(".:"): drop trailing dots and colons. -/
def rstripDotColon (s : String) : String :=
  String.mk ((s.toList.reverse.dropWhile (fun c => c = '.' || c = ':')).reverse)

/-- Membership in the letter_to_index dict of quiz_app: the keys are
chr(65 + i) for i < n. -/
def isOptionLetter (n : Nat) (c : Char) : Bool :=
  65 ≤ c.toNat && c.toNat < 65 + n

/-- The option_to_letter dict of normalize_mc_answer_to_letters:
str(opt).strip() maps to chr(65 + i); a later duplicate key overrides an
earlier one, as in a Python dict comprehension. -/
def option_to_letter (options : List String) (s : String) : Option Char :=
  options.enum.foldl
    (fun acc p => if pyStrip p.2 = s then some (Char.ofNat (65 + p.1)) else acc)
    Option.none

/-- The per-token resolution of normalize_mc_answer_to_letters: leading
letter, then exact option text, then punctuated first word; an unmatched
token contributes nothing. -/
def token_letter (options : List String) (raw : PyScalar) : Option Char :=
  let s := pyStrip (pyStr raw)
  if s = "" then Option.none
  else
    let first := (strHead s).toUpper
    if isOptionLetter options.length first then some first
    else
      match option_to_letter options s with
      | some c => some c
      | Option.none =>
        let token := pyUpper (rstripDotColon (firstWord s))
        if token.length = 1 && isOptionLetter options.length (strHead token) then
          some (strHead token)
        else Option.none

/-- The accumulation step of the for-loop in normalize_mc_answer_to_letters. -/
def add_token_letter (options : List String) (letters : Finset Char)
    (raw : PyScalar) : Finset Char :=
  match token_letter options raw with
  | some c => insert c letters
  | Option.none => letters

/-- The for-loop of normalize_mc_answer_to_letters over the item list. -/
def items_letters (options : List String) (items : List PyScalar) : Finset Char :=
  items.foldl (add_token_letter options) ∅

/-- normalize_mc_answer_to_letters of quiz_app.py: None yields the empty set,
a non-list scalar is wrapped in a singleton list, and each item is resolved
by token_letter. -/
def normalize_mc_answer_to_letters (options : List String) (answer : PyVal) :
    Finset Char :=
  match answer with
  | PyVal.scalar PyScalar.none => ∅
  | PyVal.scalar v => items_letters options [v]
  | PyVal.list xs => items_letters options xs

/-- format_correct_answer of quiz_app.py: "Unknown" for an empty set, else
the sorted letters each rendered as "L. option-text" (bare letter when the
index is out of range), joined with ", ". -/
def format_correct_answer (options : List String) (letters_set : Finset Char) :
    String :=
  if letters_set = ∅ then "Unknown"
  else
    let ordered := letters_set.sort (· ≤ ·)
    let parts := ordered.map (fun L =>
      let idx : Int := (L.toNat : Int) - 65
      if 0 ≤ idx ∧ idx < (options.length : Int) then
        L.toString ++ ". " ++ options.getD idx.toNat ""
      else L.toString)
    joinSep ", " parts

/-- Python list indexing options[i] with negative-index wrap-around;
Option.none models IndexError. -/
def pyIndex (xs : List String) (i : Int) : Option String :=
  let n : Int := (xs.length : Int)
  let j := if i < 0 then i + n else i
  if 0 ≤ j ∧ j < n then some (xs.getD j.toNat "") else Option.none

/-- The set comprehension of the fallback path of is_mc_selection_correct:
options[ord(L) - 65] for L in selected_letters; Option.none models an
IndexError from an out-of-range letter. -/
def selected_texts (options : List String) (selected : Finset Char) :
    Option (Finset String) :=
  if ∀ L ∈ selected, (pyIndex options ((L.toNat : Int) - 65)).isSome then
    some (selected.image (fun L => (pyIndex options ((L.toNat : Int) - 65)).getD ""))
  else Option.none

/-- set(correct) if correct is a collection, else the singleton set, as a
duplicate-free list (one fixed enumeration of the Python set). -/
def correct_set_list (correct : PyVal) : List PyScalar :=
  match correct with
  | PyVal.list xs => xs.dedup
  | PyVal.scalar v => [v]

/-- A Python str if the scalar is one. -/
def strOfScalar : PyScalar → Option String
  | PyScalar.str s => some s
  | _ => Option.none

/-- The strings of a scalar list, if every element is one (Python join
raises a TypeError otherwise). -/
def strsOf : List PyScalar → Option (List String)
  | [] => some []
  | v :: vs =>
    match strOfScalar v, strsOf vs with
    | some s, some ss => some (s :: ss)
    | _, _ => Option.none

/-- Python sep.join(items): every joined element must be a str, otherwise a
TypeError is raised (modelled as Option.none). -/
def pyJoin (sep : String) (items : List PyScalar) : Option String :=
  match strsOf items with
  | some ss => some (joinSep sep ss)
  | Option.none => Option.none

/-- is_mc_selection_correct of quiz_app.py.  The primary path compares letter
sets after normalization; the fallback path (empty normalization) compares
the selected option texts, as a set, with the raw correct field coerced to a
set, and builds the display from a second normalization attempt or from the
joined raw texts.  Option.none models a raised exception. -/
def is_mc_selection_correct (options : List String) (correct : PyVal)
    (selected : Finset Char) : Option (Bool × String) :=
  let correct_letters := normalize_mc_answer_to_letters options correct
  if correct_letters ≠ ∅ then
    some (decide (selected = correct_letters),
          format_correct_answer options correct_letters)
  else
    (selected_texts options selected).bind fun sel_texts =>
      let cset := correct_set_list correct
      let is_correct := decide (sel_texts.image PyScalar.str = cset.toFinset)
      let tmp_letters := normalize_mc_answer_to_letters options (PyVal.list cset)
      if tmp_letters ≠ ∅ then
        some (is_correct, format_correct_answer options tmp_letters)
      else
        (pyJoin ", " cset).map (fun d => (is_correct, d))

/-- The expected sequence of ask_drag_and_drop: the answer field, coerced to
a singleton list when it is a scalar. -/
def dnd_expected (correct : PyVal) : List PyScalar :=
  match correct with
  | PyVal.list xs => xs
  | PyVal.scalar v => [v]

/-- The correctness test of the submit handler of ask_drag_and_drop:
selected == expected, a positional comparison of whole strings. -/
def dnd_is_correct (correct : PyVal) (selected : List String) : Bool :=
  decide (selected.map PyScalar.str = dnd_expected correct)

/-- The expected-sequence display built on the wrong branch of
ask_drag_and_drop: ", ".join(expected); Option.none models the TypeError
raised when an expected entry is not a string. -/
def dnd_expected_display (correct : PyVal) : Option String :=
  pyJoin ", " (dnd_expected correct)

/-- The in-memory session state of quiz_app: the queue built by run_quiz, the
0-based index of the current question, and the running count of correct
answers. -/
structure SessionState (Q : Type) where
  question_queue : List Q
  current_question : Nat
  correct_answers : Nat

/-- The score computation of end_quiz: the denominator is current_question,
replaced by 1 when no question was answered. -/
def end_quiz_score {Q : Type} (s : SessionState Q) : ℚ :=
  let total_answered : Nat :=
    if s.current_question > 0 then s.current_question else 1
  (s.correct_answers : ℚ) / (total_answered : ℚ) * 100

/-- The outcome of ask_question: either a question is presented or the quiz
ends with a score. -/
inductive AskResult (Q : Type) where
  | presents (q : Q)
  | ended (score : ℚ)
deriving DecidableEq

/-- ask_question of quiz_app: past the end of the queue the quiz ends
(end_quiz), otherwise the question at the current index is presented. -/
def ask_question {Q : Type} (s : SessionState Q) : AskResult Q :=
  if h : s.current_question ≥ s.question_queue.length then
    AskResult.ended (end_quiz_score s)
  else
    AskResult.presents (s.question_queue.get
      ⟨s.current_question, Nat.lt_of_not_le h⟩)

/-- The persisted collections: question_memory (mastered questions) and the
wrong-questions list (missed questions), as quiz_app keeps them. -/
structure PersistState (Q : Type) where
  question_memory : List Q
  wrong_questions : List Q
deriving DecidableEq

/-- mark_question_correct of quiz_app: append the question to the mastered
list unless present, and remove its first occurrence from the missed list if
present (Python list.remove). -/
def mark_question_correct {Q : Type} [DecidableEq Q] (q : Q)
    (p : PersistState Q) : PersistState Q :=
  let mem := if q ∈ p.question_memory then p.question_memory
             else p.question_memory ++ [q]
  let wrong := if q ∈ p.wrong_questions then p.wrong_questions.erase q
               else p.wrong_questions
  ⟨mem, wrong⟩

/-- The wrong-answer branch of the submit handlers of ask_multiple_choice and
ask_drag_and_drop: append the question to the missed list unless present; the
mastered list is untouched. -/
def record_wrong_answer {Q : Type} [DecidableEq Q] (q : Q)
    (p : PersistState Q) : PersistState Q :=
  ⟨p.question_memory,
   if q ∈ p.wrong_questions then p.wrong_questions
   else p.wrong_questions ++ [q]⟩

/-- sum(topics.values(), []) of run_quiz: the bank flattened in topic
insertion order (the bank is modelled as an association list, matching the
insertion-ordered Python dict). -/
def bank_questions {Q : Type} (topics : List (String × List Q)) : List Q :=
  (topics.map Prod.snd).flatten

/-- The missed list filtered to questions still present in the bank, as in
run_quiz. -/
def filtered_missed {Q : Type} [DecidableEq Q] (topics : List (String × List Q))
    (wrong_questions : List Q) : List Q :=
  wrong_questions.filter (fun q => decide (q ∈ bank_questions topics))

/-- The queue construction of run_quiz.  random.shuffle is modelled by the
function parameter shuffle, constrained to be a permutation in the theorems
about this definition. -/
def run_quiz_build_queue {Q : Type} [DecidableEq Q]
    (shuffle : List Q → List Q) (question_count : Nat)
    (topics : List (String × List Q))
    (question_memory wrong_questions : List Q) : List Q :=
  let all_questions := bank_questions topics
  let wrong := filtered_missed topics wrong_questions
  let remaining := all_questions.filter
    (fun q => decide (q ∉ question_memory) && decide (q ∉ wrong))
  let combined := wrong ++ shuffle remaining
  let count := min question_count combined.length
  combined.take count

/-- The remainder as the specification words it: bank questions in neither
the mastered set nor the (unfiltered) missed set.  The code filters against
the filtered missed list instead; the two agree (run_quiz_queue_structure). -/
def eligible_remainder {Q : Type} [DecidableEq Q]
    (topics : List (String × List Q))
    (question_memory wrong_questions : List Q) : List Q :=
  (bank_questions topics).filter
    (fun q => decide (q ∉ question_memory) && decide (q ∉ wrong_questions))

/-- The display string as the specification words it for the primary path:
each correct letter followed by ". " and that option's text, in ascending
letter order, joined by ", ". -/
def mc_display_spec (options : List String) (letters : Finset Char) : String :=
  joinSep ", " ((letters.sort (· ≤ ·)).map
    (fun L => L.toString ++ ". " ++ options.getD (L.toNat - 65) ""))

lemma foldl_add_token_letter (options : List String) (items : List PyScalar) :
    ∀ acc : Finset Char, items.foldl (add_token_letter options) acc =
      acc ∪ (items.filterMap (token_letter options)).toFinset := by
  induction items with
  | nil => intro acc; simp
  | cons a t ih =>
    intro acc
    rw [List.foldl_cons, List.filterMap_cons]
    cases h : token_letter options a with
    | none =>
      have hstep : add_token_letter options acc a = acc := by
        unfold add_token_letter; rw [h]
      rw [hstep, ih]
    | some c =>
      have hstep : add_token_letter options acc a = insert c acc := by
        unfold add_token_letter; rw [h]
      rw [hstep, ih, List.toFinset_cons]
      ext x
      simp only [Finset.mem_union, Finset.mem_insert, List.mem_toFinset]
      tauto

lemma items_letters_eq (options : List String) (items : List PyScalar) :
    items_letters options items =
      (items.filterMap (token_letter options)).toFinset := by
  rw [items_letters, foldl_add_token_letter]
  simp

lemma mem_items_letters (options : List String) (items : List PyScalar)
    (L : Char) : L ∈ items_letters options items ↔
      ∃ raw ∈ items, token_letter options raw = some L := by
  rw [items_letters_eq]
  simp [List.mem_filterMap]

lemma normalize_scalar_none (options : List String) :
    normalize_mc_answer_to_letters options (PyVal.scalar PyScalar.none) = ∅ :=
  rfl

lemma normalize_scalar_str (options : List String) (s : String) :
    normalize_mc_answer_to_letters options (PyVal.scalar (PyScalar.str s)) =
      items_letters options [PyScalar.str s] := rfl

lemma normalize_scalar_int (options : List String) (n : Int) :
    normalize_mc_answer_to_letters options (PyVal.scalar (PyScalar.int n)) =
      items_letters options [PyScalar.int n] := rfl

lemma normalize_list (options : List String) (xs : List PyScalar) :
    normalize_mc_answer_to_letters options (PyVal.list xs) =
      items_letters options xs := rfl

lemma foldl_dict_result (s : String) (l : List (Nat × String)) :
    ∀ (acc : Option Char) (c : Char),
      l.foldl (fun a p =>
        if pyStrip p.2 = s then some (Char.ofNat (65 + p.1)) else a) acc =
          some c →
      acc = some c ∨ ∃ p ∈ l, c = Char.ofNat (65 + p.1) := by
  induction l with
  | nil => intro acc c h; exact Or.inl h
  | cons a t ih =>
    intro acc c h
    rw [List.foldl_cons] at h
    rcases ih _ c h with h' | ⟨p, hp, hc⟩
    · by_cases hs : pyStrip a.2 = s
      · rw [if_pos hs] at h'
        right
        exact ⟨a, List.mem_cons_self a t, (Option.some.injEq _ _ ▸ h').symm⟩
      · rw [if_neg hs] at h'
        exact Or.inl h'
    · exact Or.inr ⟨p, List.mem_cons_of_mem a hp, hc⟩

lemma option_to_letter_shape (options : List String) (s : String) (c : Char)
    (h : option_to_letter options s = some c) :
    ∃ i, i < options.length ∧ c = Char.ofNat (65 + i) := by
  rcases foldl_dict_result s options.enum Option.none c h with h' | ⟨p, hp, hc⟩
  · cases h'
  · refine ⟨p.1, ?_, hc⟩
    have hsome := List.mem_enum_iff_getElem?.1 hp
    obtain ⟨hlt, _⟩ := List.getElem?_eq_some_iff.1 hsome
    exact hlt

lemma char_ofNat_small_toNat (i : Nat) (hi : i < 26) :
    (Char.ofNat (65 + i)).toNat = 65 + i := by
  interval_cases i <;> rfl

lemma token_letter_valid (options : List String) (raw : PyScalar) (c : Char)
    (hn : options.length ≤ 26) (h : token_letter options raw = some c) :
    isOptionLetter options.length c = true := by
  simp only [token_letter] at h
  by_cases h0 : pyStrip (pyStr raw) = ""
  · rw [if_pos h0] at h
    cases h
  · rw [if_neg h0] at h
    by_cases h1 :
        isOptionLetter options.length ((strHead (pyStrip (pyStr raw))).toUpper)
          = true
    · rw [if_pos h1] at h
      cases h
      exact h1
    · rw [if_neg h1] at h
      cases hopt : option_to_letter options (pyStrip (pyStr raw)) with
      | some d =>
        simp only [hopt] at h
        cases h
        obtain ⟨i, hi, rfl⟩ := option_to_letter_shape options _ c hopt
        have htn : (Char.ofNat (65 + i)).toNat = 65 + i :=
          char_ofNat_small_toNat i (lt_of_lt_of_le hi hn)
        simp only [isOptionLetter, htn, Bool.and_eq_true, decide_eq_true_eq]
        omega
      | none =>
        simp only [hopt] at h
        by_cases h3 :
            ((pyUpper (rstripDotColon (firstWord (pyStrip (pyStr raw))))).length
                = 1 &&
              isOptionLetter options.length
                (strHead (pyUpper (rstripDotColon
                  (firstWord (pyStrip (pyStr raw))))))) = true
        · rw [if_pos h3] at h
          cases h
          simp only [Bool.and_eq_true] at h3
          exact h3.2
        · rw [if_neg h3] at h
          cases h

lemma normalize_letters_valid (options : List String) (answer : PyVal)
    (hn : options.length ≤ 26) :
    ∀ L ∈ normalize_mc_answer_to_letters options answer,
      isOptionLetter options.length L = true := by
  intro L hL
  have hItems : ∀ items : List PyScalar,
      L ∈ items_letters options items → isOptionLetter options.length L = true := by
    intro items hmem
    obtain ⟨raw, _, hraw⟩ := (mem_items_letters options items L).1 hmem
    exact token_letter_valid options raw L hn hraw
  cases answer with
  | scalar v =>
    cases v with
    | none => simp [normalize_scalar_none] at hL
    | str s => exact hItems _ (by rwa [normalize_scalar_str] at hL)
    | int n => exact hItems _ (by rwa [normalize_scalar_int] at hL)
  | list xs => exact hItems _ (by rwa [normalize_list] at hL)

lemma format_eq_mc_display (options : List String) (letters : Finset Char)
    (hne : letters ≠ ∅)
    (hv : ∀ L ∈ letters, isOptionLetter options.length L = true) :
    format_correct_answer options letters = mc_display_spec options letters := by
  simp only [format_correct_answer, mc_display_spec]
  rw [if_neg hne]
  congr 1
  apply List.map_congr_left
  intro L hL
  have hvL := hv L ((Finset.mem_sort (α := Char) (· ≤ ·)).1 hL)
  simp only [isOptionLetter, Bool.and_eq_true, decide_eq_true_eq] at hvL
  rw [if_pos (by constructor <;> omega)]
  have hidx : ((L.toNat : Int) - 65).toNat = L.toNat - 65 := by omega
  rw [hidx]

lemma pyIndex_of_isOptionLetter (options : List String) (L : Char)
    (h : isOptionLetter options.length L = true) :
    pyIndex options ((L.toNat : Int) - 65) =
      some (options.getD (L.toNat - 65) "") := by
  simp only [isOptionLetter, Bool.and_eq_true, decide_eq_true_eq] at h
  simp only [pyIndex]
  rw [if_neg (show ¬((L.toNat : Int) - 65 < 0) from by omega)]
  rw [if_pos (show (0 : Int) ≤ (L.toNat : Int) - 65 ∧
    (L.toNat : Int) - 65 < (options.length : Int) from by constructor <;> omega)]
  have hidx : ((L.toNat : Int) - 65).toNat = L.toNat - 65 := by omega
  rw [hidx]

lemma selected_texts_of_valid (options : List String) (selected : Finset Char)
    (h : ∀ L ∈ selected, isOptionLetter options.length L = true) :
    selected_texts options selected =
      some (selected.image (fun L => options.getD (L.toNat - 65) "")) := by
  rw [selected_texts, if_pos]
  · congr 1
    apply Finset.image_congr
    intro L hL
    simp only [pyIndex_of_isOptionLetter options L (h L (Finset.mem_coe.1 hL)),
      Option.getD_some]
  · intro L hL
    simp only [pyIndex_of_isOptionLetter options L (h L hL), Option.isSome_some]

lemma pyJoin_map_str (sep : String) (ts : List String) :
    pyJoin sep (ts.map PyScalar.str) = some (joinSep sep ts) := by
  rw [pyJoin]
  have h : strsOf (ts.map PyScalar.str) = some ts := by
    induction ts with
    | nil => rfl
    | cons a t ih => simp [strsOf, strOfScalar, ih]
  rw [h]

/-- Shared characterization of the fallback path of is_mc_selection_correct
(empty normalization, valid selected letters, string-valued correct set). -/
lemma is_mc_fallback_spec (options : List String) (correct : PyVal)
    (selected : Finset Char) (ts : List String)
    (hsel : ∀ L ∈ selected, isOptionLetter options.length L = true)
    (hts : correct_set_list correct = ts.map PyScalar.str)
    (h : normalize_mc_answer_to_letters options correct = ∅) :
    is_mc_selection_correct options correct selected =
      some (decide ((selected.image
              (fun L => options.getD (L.toNat - 65) "")).image PyScalar.str =
            (correct_set_list correct).toFinset),
            if normalize_mc_answer_to_letters options
                (PyVal.list (correct_set_list correct)) ≠ ∅ then
              format_correct_answer options
                (normalize_mc_answer_to_letters options
                  (PyVal.list (correct_set_list correct)))
            else joinSep ", " ts) := by
  simp only [is_mc_selection_correct]
  rw [if_neg (by simp [h]), selected_texts_of_valid options selected hsel]
  simp only [Option.some_bind]
  by_cases h2 : normalize_mc_answer_to_letters options
      (PyVal.list (correct_set_list correct)) ≠ ∅
  · rw [if_pos h2, if_pos h2]
  · rw [if_neg h2, if_neg h2, hts, pyJoin_map_str]
    simp only [Option.map_some']

/-- C1: with a non-empty normalization of the correct-answer field,
is_mc_selection_correct returns True exactly when the selected letter set
equals the normalized correct set, and the display string lists each correct
letter followed by ". " and that option's text, in ascending letter order,
joined by ", " (mc_display_spec).  The options bound of 26 is the
specification's own bound on AnswerLetterSet. -/
theorem mc_primary_match (options : List String) (correct : PyVal)
    (selected : Finset Char) (hn : options.length ≤ 26)
    (h : normalize_mc_answer_to_letters options correct ≠ ∅) :
    is_mc_selection_correct options correct selected =
      some (decide (selected = normalize_mc_answer_to_letters options correct),
            mc_display_spec options
              (normalize_mc_answer_to_letters options correct)) := by
  simp only [is_mc_selection_correct]
  rw [if_pos h,
    format_eq_mc_display options _ h (normalize_letters_valid options correct hn)]

/-- C1 witness: options ["Foo","Bar","Baz"], correct "B", selected letters
taken as the concrete inputs of the specification's example. -/
theorem mc_primary_match_witness :
    (["Foo", "Bar", "Baz"].length ≤ 26 ∧
      normalize_mc_answer_to_letters ["Foo", "Bar", "Baz"]
        (PyVal.scalar (PyScalar.str "B")) ≠ ∅) ∧
    is_mc_selection_correct ["Foo", "Bar", "Baz"]
        (PyVal.scalar (PyScalar.str "B")) {'B'} =
      some (decide (({'B'} : Finset Char) =
              normalize_mc_answer_to_letters ["Foo", "Bar", "Baz"]
                (PyVal.scalar (PyScalar.str "B"))),
            mc_display_spec ["Foo", "Bar", "Baz"]
              (normalize_mc_answer_to_letters ["Foo", "Bar", "Baz"]
                (PyVal.scalar (PyScalar.str "B")))) :=
  ⟨⟨by decide, by decide⟩,
   mc_primary_match ["Foo", "Bar", "Baz"] (PyVal.scalar (PyScalar.str "B"))
     {'B'} (by decide) (by decide)⟩

/-- C8: normalization is order-independent: permuting the raw answer tokens
(in particular swapping two tokens) never changes the resulting letter set. -/
theorem normalize_order_independent (options : List String)
    (l₁ l₂ : List PyScalar) (hperm : l₁.Perm l₂) :
    normalize_mc_answer_to_letters options (PyVal.list l₁) =
      normalize_mc_answer_to_letters options (PyVal.list l₂) := by
  rw [normalize_list, normalize_list, items_letters_eq, items_letters_eq]
  exact List.toFinset_eq_of_perm _ _ (hperm.filterMap (token_letter options))

/-- C8 witness: the two-token swap of the specification at concrete tokens. -/
theorem normalize_order_independent_witness :
    [PyScalar.str "A:", PyScalar.str "Beta"].Perm
      [PyScalar.str "Beta", PyScalar.str "A:"] ∧
    normalize_mc_answer_to_letters ["Alpha", "Beta"]
        (PyVal.list [PyScalar.str "A:", PyScalar.str "Beta"]) =
      normalize_mc_answer_to_letters ["Alpha", "Beta"]
        (PyVal.list [PyScalar.str "Beta", PyScalar.str "A:"]) :=
  ⟨by decide,
   normalize_order_independent ["Alpha", "Beta"] _ _ (by decide)⟩

/-- C10: the leading-letter rule shadows the exact-text rule: whenever the
stripped token is non-empty and its first character, uppercased, is a valid
option letter, that letter is the token's entire contribution — regardless of
whether the token equals some option's text. -/
theorem leading_letter_shadows_exact_text (options : List String) (s : String)
    (h0 : pyStrip s ≠ "")
    (h1 : isOptionLetter options.length ((strHead (pyStrip s)).toUpper) = true) :
    normalize_mc_answer_to_letters options (PyVal.scalar (PyScalar.str s)) =
      {(strHead (pyStrip s)).toUpper} := by
  rw [normalize_scalar_str, items_letters_eq]
  have htok : token_letter options (PyScalar.str s) =
      some ((strHead (pyStrip s)).toUpper) := by
    simp only [token_letter, pyStr]
    rw [if_neg h0, if_pos h1]
  rw [List.filterMap_cons, htok]
  simp

/-- C10 witness: options ["Bar","Alpha"] and token "Alpha": the token is
exactly the text of option B, yet normalization yields {A} because the
leading-letter rule fires first (the exact-text rule alone would give B). -/
theorem leading_letter_shadows_exact_text_witness :
    (pyStrip "Alpha" ≠ "" ∧
      isOptionLetter ["Bar", "Alpha"].length
        ((strHead (pyStrip "Alpha")).toUpper) = true ∧
      option_to_letter ["Bar", "Alpha"] "Alpha" = some 'B') ∧
    normalize_mc_answer_to_letters ["Bar", "Alpha"]
      (PyVal.scalar (PyScalar.str "Alpha")) =
        {(strHead (pyStrip "Alpha")).toUpper} :=
  ⟨⟨by decide, by decide, by decide⟩,
   leading_letter_shadows_exact_text ["Bar", "Alpha"] "Alpha"
     (by decide) (by decide)⟩

/-- C3: when normalization of the correct-answer field is empty,
is_mc_selection_correct compares the selected option texts, as a set, with
the raw correct-answer field coerced to a set (scalar to singleton), and the
display is the formatted second normalization attempt when non-empty, else
the raw correct texts joined with ", ". -/
theorem mc_fallback_behavior (options : List String) (correct : PyVal)
    (selected : Finset Char) (ts : List String)
    (hsel : ∀ L ∈ selected, isOptionLetter options.length L = true)
    (hts : correct_set_list correct = ts.map PyScalar.str)
    (h : normalize_mc_answer_to_letters options correct = ∅) :
    is_mc_selection_correct options correct selected =
      some (decide ((selected.image
              (fun L => options.getD (L.toNat - 65) "")).image PyScalar.str =
            (correct_set_list correct).toFinset),
            if normalize_mc_answer_to_letters options
                (PyVal.list (correct_set_list correct)) ≠ ∅ then
              format_correct_answer options
                (normalize_mc_answer_to_letters options
                  (PyVal.list (correct_set_list correct)))
            else joinSep ", " ts) :=
  is_mc_fallback_spec options correct selected ts hsel hts h

/-- C3 witness: options ["Foo","Bar"], correct "zzz" (normalizes to the
empty set), selected {A}. -/
theorem mc_fallback_behavior_witness :
    ((∀ L ∈ ({'A'} : Finset Char),
        isOptionLetter ["Foo", "Bar"].length L = true) ∧
      correct_set_list (PyVal.scalar (PyScalar.str "zzz")) =
        ["zzz"].map PyScalar.str ∧
      normalize_mc_answer_to_letters ["Foo", "Bar"]
        (PyVal.scalar (PyScalar.str "zzz")) = ∅) ∧
    is_mc_selection_correct ["Foo", "Bar"]
        (PyVal.scalar (PyScalar.str "zzz")) {'A'} =
      some (decide (((({'A'} : Finset Char).image
              (fun L => ["Foo", "Bar"].getD (L.toNat - 65) "")).image
                PyScalar.str =
            (correct_set_list (PyVal.scalar (PyScalar.str "zzz"))).toFinset)),
            if normalize_mc_answer_to_letters ["Foo", "Bar"]
                (PyVal.list (correct_set_list
                  (PyVal.scalar (PyScalar.str "zzz")))) ≠ ∅ then
              format_correct_answer ["Foo", "Bar"]
                (normalize_mc_answer_to_letters ["Foo", "Bar"]
                  (PyVal.list (correct_set_list
                    (PyVal.scalar (PyScalar.str "zzz")))))
            else joinSep ", " ["zzz"]) :=
  ⟨⟨by decide, by decide, by decide⟩,
   mc_fallback_behavior ["Foo", "Bar"] (PyVal.scalar (PyScalar.str "zzz"))
     {'A'} ["zzz"] (by decide) (by decide) (by decide)⟩

/-- C4 counterexample: with options ["Foo","Bar"] and correct "zzz", both
normalization attempts fail, yet the display string returned by
is_mc_selection_correct is "zzz" (the joined raw texts), not the literal
"Unknown" the claim requires. -/
theorem mc_unknown_display_refuted :
    normalize_mc_answer_to_letters ["Foo", "Bar"]
      (PyVal.scalar (PyScalar.str "zzz")) = ∅ ∧
    normalize_mc_answer_to_letters ["Foo", "Bar"]
      (PyVal.list (correct_set_list (PyVal.scalar (PyScalar.str "zzz")))) = ∅ ∧
    is_mc_selection_correct ["Foo", "Bar"]
      (PyVal.scalar (PyScalar.str "zzz")) ∅ = some (false, "zzz") ∧
    ("zzz" : String) ≠ "Unknown" := by decide

/-- C4 amended: when both normalization attempts fail, the display string of
is_mc_selection_correct is the raw correct texts joined with ", "; the
literal "Unknown" is produced by format_correct_answer on an empty letter
set, but is never the display of is_mc_selection_correct. -/
theorem mc_double_failure_display (options : List String) (correct : PyVal)
    (selected : Finset Char) (ts : List String)
    (hsel : ∀ L ∈ selected, isOptionLetter options.length L = true)
    (hts : correct_set_list correct = ts.map PyScalar.str)
    (h1 : normalize_mc_answer_to_letters options correct = ∅)
    (h2 : normalize_mc_answer_to_letters options
      (PyVal.list (correct_set_list correct)) = ∅) :
    (∃ b, is_mc_selection_correct options correct selected =
      some (b, joinSep ", " ts)) ∧
    format_correct_answer options ∅ = "Unknown" := by
  constructor
  · refine ⟨decide ((selected.image
        (fun L => options.getD (L.toNat - 65) "")).image PyScalar.str =
          (correct_set_list correct).toFinset), ?_⟩
    rw [is_mc_fallback_spec options correct selected ts hsel hts h1]
    rw [if_neg (by simp [h2])]
  · simp [format_correct_answer]

/-- C4 amended witness: the counterexample input, with selected {A}. -/
theorem mc_double_failure_display_witness :
    ((∀ L ∈ ({'A'} : Finset Char),
        isOptionLetter ["Foo", "Bar"].length L = true) ∧
      correct_set_list (PyVal.scalar (PyScalar.str "zzz")) =
        ["zzz"].map PyScalar.str ∧
      normalize_mc_answer_to_letters ["Foo", "Bar"]
        (PyVal.scalar (PyScalar.str "zzz")) = ∅ ∧
      normalize_mc_answer_to_letters ["Foo", "Bar"]
        (PyVal.list (correct_set_list
          (PyVal.scalar (PyScalar.str "zzz")))) = ∅) ∧
    ((∃ b, is_mc_selection_correct ["Foo", "Bar"]
        (PyVal.scalar (PyScalar.str "zzz")) {'A'} =
          some (b, joinSep ", " ["zzz"])) ∧
      format_correct_answer ["Foo", "Bar"] ∅ = "Unknown") :=
  ⟨⟨by decide, by decide, by decide, by decide⟩,
   mc_double_failure_display ["Foo", "Bar"]
     (PyVal.scalar (PyScalar.str "zzz")) {'A'} ["zzz"]
     (by decide) (by decide) (by decide) (by decide)⟩

/-- C7 counterexample: with options ["Foo"], correct None and no letters
selected, is_mc_selection_correct raises a TypeError (the display join over
the set containing None) — modelled by Option.none — refuting the claim that
it never raises for null correct-answer values. -/
theorem mc_none_answer_raises :
    is_mc_selection_correct ["Foo"] (PyVal.scalar PyScalar.none) ∅ =
      Option.none := by decide

/-- C7 amended: normalize_mc_answer_to_letters is total on every answer
value (it is a function in this model, with no error outcome), and
is_mc_selection_correct returns a result — never an exception — whenever the
selected letters are valid option letters and the correct-answer field is a
string or a collection of strings; for a null or other non-string correct
value whose normalizations fail, the display join raises (counterexample
mc_none_answer_raises). -/
theorem mc_no_raise_for_string_answers (options : List String)
    (correct : PyVal) (selected : Finset Char) (ts : List String)
    (hsel : ∀ L ∈ selected, isOptionLetter options.length L = true)
    (hts : correct_set_list correct = ts.map PyScalar.str) :
    (is_mc_selection_correct options correct selected).isSome = true := by
  by_cases h : normalize_mc_answer_to_letters options correct ≠ ∅
  · simp only [is_mc_selection_correct]
    rw [if_pos h]
    rfl
  · push_neg at h
    rw [is_mc_fallback_spec options correct selected ts hsel hts h]
    rfl

/-- C7 amended witness: options ["Foo","Bar"], correct the plain string
"zzz", selected {B}. -/
theorem mc_no_raise_for_string_answers_witness :
    ((∀ L ∈ ({'B'} : Finset Char),
        isOptionLetter ["Foo", "Bar"].length L = true) ∧
      correct_set_list (PyVal.scalar (PyScalar.str "zzz")) =
        ["zzz"].map PyScalar.str) ∧
    (is_mc_selection_correct ["Foo", "Bar"]
      (PyVal.scalar (PyScalar.str "zzz")) {'B'}).isSome = true :=
  ⟨⟨by decide, by decide⟩,
   mc_no_raise_for_string_answers ["Foo", "Bar"]
     (PyVal.scalar (PyScalar.str "zzz")) {'B'} ["zzz"]
     (by decide) (by decide)⟩

/-- C5: with an empty session queue, ask_question transitions straight to
Ended with score 0 (no question presented, no exception), and in general the
end_quiz score is correct / max(presented, 1) * 100. -/
theorem empty_queue_ends_with_zero_score (Q : Type) :
    ask_question (Q := Q) ⟨[], 0, 0⟩ = AskResult.ended 0 ∧
    ∀ s : SessionState Q, end_quiz_score s =
      (s.correct_answers : ℚ) / ((max s.current_question 1 : Nat) : ℚ) * 100 := by
  constructor
  · have hstep : ask_question (Q := Q) ⟨[], 0, 0⟩ =
        AskResult.ended (end_quiz_score (Q := Q) ⟨[], 0, 0⟩) := rfl
    have h : end_quiz_score (Q := Q) ⟨[], 0, 0⟩ = 0 := by
      simp [end_quiz_score]
    rw [hstep, h]
  · intro s
    simp only [end_quiz_score]
    have hmax : (if s.current_question > 0 then s.current_question else 1) =
        max s.current_question 1 := by
      rcases Nat.eq_zero_or_pos s.current_question with h | h
      · rw [h]
        rfl
      · rw [if_pos h]
        exact (Nat.max_eq_left h).symm
    rw [hmax]

/-- C6: ordered-selection (drag-and-drop) correctness is positional equality
of whole strings — equal lengths and selected[i] = correct[i] for every
index — with a scalar correct value coerced to a singleton sequence; entries
are never split on any delimiter, and the expected-sequence display is the
correct sequence joined with ", ". -/
theorem dnd_positional_equality (xs selected : List String) :
    (dnd_is_correct (PyVal.list (xs.map PyScalar.str)) selected = true ↔
      selected.length = xs.length ∧
        ∀ (i : Nat) (h1 : i < selected.length) (h2 : i < xs.length),
          selected.get ⟨i, h1⟩ = xs.get ⟨i, h2⟩) ∧
    (∀ v : PyScalar, dnd_is_correct (PyVal.scalar v) selected =
      dnd_is_correct (PyVal.list [v]) selected) ∧
    dnd_expected_display (PyVal.list (xs.map PyScalar.str)) =
      some (joinSep ", " xs) := by
  refine ⟨?_, fun v => rfl, pyJoin_map_str ", " xs⟩
  simp only [dnd_is_correct, dnd_expected, decide_eq_true_iff]
  have hinj : Function.Injective PyScalar.str := fun a b hab => by
    injection hab
  constructor
  · intro hEq
    have hx : selected = xs := List.map_injective_iff.2 hinj hEq
    subst hx
    exact ⟨rfl, fun i h1 h2 => rfl⟩
  · rintro ⟨hlen, hget⟩
    have hx : selected = xs := List.ext_get_iff.2 ⟨hlen, hget⟩
    rw [hx]

/-- C6 witness: the specification's examples — ["Step1","Step2"] in order is
correct, reversed is incorrect, an entry containing "|" is compared whole,
and the display joins the expected sequence with ", ". -/
theorem dnd_positional_equality_witness :
    dnd_is_correct (PyVal.list (["Step1", "Step2"].map PyScalar.str))
      ["Step2", "Step1"] = false ∧
    dnd_is_correct (PyVal.list (["Step1", "Step2"].map PyScalar.str))
      ["Step1", "Step2"] = true ∧
    dnd_is_correct (PyVal.list (["left|right", "mid"].map PyScalar.str))
      ["left", "right", "mid"] = false ∧
    dnd_expected_display (PyVal.list (["Step1", "Step2"].map PyScalar.str)) =
      some "Step1, Step2" := by
  refine ⟨by decide, ?_, by decide, ?_⟩
  · exact (dnd_positional_equality ["Step1", "Step2"] ["Step1", "Step2"]).1.mpr
      ⟨rfl, fun i h1 h2 => rfl⟩
  · have h := (dnd_positional_equality ["Step1", "Step2"] ["Step1", "Step2"]).2.2
    rw [h]
    decide

/-- C9 counterexample: from the disjoint state (mastered = [0], missed = []),
answering question 0 incorrectly puts 0 in both persisted collections; and
from the disjoint state (mastered = [], missed = [0,0]) — a missed list with
a duplicate — answering 0 correctly removes only the first copy, again
leaving 0 in both.  So answer-submission steps do not preserve disjointness
in general. -/
theorem mastered_missed_disjoint_refuted :
    ((∀ x ∈ (PersistState.mk [0] [] : PersistState Nat).question_memory,
        x ∉ (PersistState.mk [0] [] : PersistState Nat).wrong_questions) ∧
      ¬ (∀ x ∈ (record_wrong_answer 0
            (PersistState.mk [0] [] : PersistState Nat)).question_memory,
          x ∉ (record_wrong_answer 0
            (PersistState.mk [0] [] : PersistState Nat)).wrong_questions)) ∧
    ((∀ x ∈ (PersistState.mk [] [0, 0] : PersistState Nat).question_memory,
        x ∉ (PersistState.mk [] [0, 0] : PersistState Nat).wrong_questions) ∧
      ¬ (∀ x ∈ (mark_question_correct 0
            (PersistState.mk [] [0, 0] : PersistState Nat)).question_memory,
          x ∉ (mark_question_correct 0
            (PersistState.mk [] [0, 0] : PersistState Nat)).wrong_questions)) := by
  decide

/-- C9 amended: from a disjoint state with a duplicate-free missed list, the
correct-answer step (add to mastered, remove from missed) always preserves
disjointness, and the incorrect-answer step (add to missed) preserves it
provided the answered question is not already mastered — which holds for
questions drawn from the session pool, since the pool excludes mastered
questions. -/
theorem mastered_missed_disjoint_preserved (Q : Type) [DecidableEq Q]
    (p : PersistState Q) (q : Q)
    (hdisj : ∀ x ∈ p.question_memory, x ∉ p.wrong_questions)
    (hnodup : p.wrong_questions.Nodup) :
    (q ∈ (mark_question_correct q p).question_memory ∧
      q ∉ (mark_question_correct q p).wrong_questions ∧
      ∀ x ∈ (mark_question_correct q p).question_memory,
        x ∉ (mark_question_correct q p).wrong_questions) ∧
    (q ∉ p.question_memory →
      q ∈ (record_wrong_answer q p).wrong_questions ∧
      ∀ x ∈ (record_wrong_answer q p).question_memory,
        x ∉ (record_wrong_answer q p).wrong_questions) := by
  have hwrong_sub : ∀ x, x ∈ (if q ∈ p.wrong_questions
      then p.wrong_questions.erase q else p.wrong_questions) →
      x ∈ p.wrong_questions := by
    intro x hx
    by_cases hqw : q ∈ p.wrong_questions
    · rw [if_pos hqw] at hx
      exact List.mem_of_mem_erase hx
    · rwa [if_neg hqw] at hx
  have hq_not : q ∉ (if q ∈ p.wrong_questions
      then p.wrong_questions.erase q else p.wrong_questions) := by
    by_cases hqw : q ∈ p.wrong_questions
    · rw [if_pos hqw]
      exact hnodup.not_mem_erase
    · rw [if_neg hqw]
      exact hqw
  simp only [mark_question_correct, record_wrong_answer]
  refine ⟨⟨?_, hq_not, ?_⟩, fun hq => ⟨?_, ?_⟩⟩
  · by_cases hqm : q ∈ p.question_memory
    · rwa [if_pos hqm]
    · rw [if_neg hqm]
      exact List.mem_append.2 (Or.inr (List.mem_singleton_self q))
  · intro x hx
    have hx' : x ∈ p.question_memory ∨ x = q := by
      by_cases hqm : q ∈ p.question_memory
      · rw [if_pos hqm] at hx
        exact Or.inl hx
      · rw [if_neg hqm] at hx
        rcases List.mem_append.1 hx with h | h
        · exact Or.inl h
        · exact Or.inr (List.mem_singleton.1 h)
    rcases hx' with h | rfl
    · intro hcon
      exact hdisj x h (hwrong_sub x hcon)
    · exact hq_not
  · by_cases hqw : q ∈ p.wrong_questions
    · rwa [if_pos hqw]
    · rw [if_neg hqw]
      exact List.mem_append.2 (Or.inr (List.mem_singleton_self q))
  · intro x hx hcon
    by_cases hqw : q ∈ p.wrong_questions
    · rw [if_pos hqw] at hcon
      exact hdisj x hx hcon
    · rw [if_neg hqw] at hcon
      rcases List.mem_append.1 hcon with h | h
      · exact hdisj x hx h
      · exact hq (List.mem_singleton.1 h ▸ hx)

/-- C9 amended witness: mastered [1], missed [2], question 2 answered both
ways from a disjoint, duplicate-free state. -/
theorem mastered_missed_disjoint_preserved_witness :
    ((∀ x ∈ (PersistState.mk [1] [2] : PersistState Nat).question_memory,
        x ∉ (PersistState.mk [1] [2] : PersistState Nat).wrong_questions) ∧
      (PersistState.mk [1] [2] : PersistState Nat).wrong_questions.Nodup) ∧
    ((2 ∈ (mark_question_correct 2
          (PersistState.mk [1] [2] : PersistState Nat)).question_memory ∧
      2 ∉ (mark_question_correct 2
          (PersistState.mk [1] [2] : PersistState Nat)).wrong_questions ∧
      ∀ x ∈ (mark_question_correct 2
          (PersistState.mk [1] [2] : PersistState Nat)).question_memory,
        x ∉ (mark_question_correct 2
          (PersistState.mk [1] [2] : PersistState Nat)).wrong_questions) ∧
    (2 ∉ (PersistState.mk [1] [2] : PersistState Nat).question_memory →
      2 ∈ (record_wrong_answer 2
          (PersistState.mk [1] [2] : PersistState Nat)).wrong_questions ∧
      ∀ x ∈ (record_wrong_answer 2
          (PersistState.mk [1] [2] : PersistState Nat)).question_memory,
        x ∉ (record_wrong_answer 2
          (PersistState.mk [1] [2] : PersistState Nat)).wrong_questions)) :=
  ⟨⟨by decide, by decide⟩,
   mastered_missed_disjoint_preserved Nat (PersistState.mk [1] [2]) 2
     (by decide) (by decide)⟩

lemma remaining_filter_eq (Q : Type) [DecidableEq Q]
    (topics : List (String × List Q)) (question_memory wrong_questions : List Q) :
    (bank_questions topics).filter
      (fun q => decide (q ∉ question_memory) &&
        decide (q ∉ filtered_missed topics wrong_questions)) =
    eligible_remainder topics question_memory wrong_questions := by
  rw [eligible_remainder]
  apply List.filter_congr
  intro q hq
  have hiff : q ∈ filtered_missed topics wrong_questions ↔
      q ∈ wrong_questions := by
    rw [filtered_missed, List.mem_filter]
    simp [hq]
  simp [hiff]

/-- C2: the queue built by run_quiz is the missed questions still present in
the bank, in stored order, followed by some permutation of the bank
questions that are in neither the mastered set nor the missed set, truncated
to min(N, totalAvailable); its length is exactly that minimum. -/
theorem run_quiz_queue_structure (Q : Type) [DecidableEq Q]
    (shuffle : List Q → List Q) (N : Nat) (topics : List (String × List Q))
    (question_memory wrong_questions : List Q)
    (hsh : (shuffle (eligible_remainder topics question_memory
        wrong_questions)).Perm
      (eligible_remainder topics question_memory wrong_questions)) :
    (∃ r : List Q,
      r.Perm (eligible_remainder topics question_memory wrong_questions) ∧
      run_quiz_build_queue shuffle N topics question_memory wrong_questions =
        (filtered_missed topics wrong_questions ++ r).take
          (min N ((filtered_missed topics wrong_questions).length +
            r.length))) ∧
    (run_quiz_build_queue shuffle N topics question_memory
        wrong_questions).length =
      min N ((filtered_missed topics wrong_questions).length +
        (eligible_remainder topics question_memory wrong_questions).length) := by
  have hre := remaining_filter_eq Q topics question_memory wrong_questions
  constructor
  · refine ⟨shuffle (eligible_remainder topics question_memory wrong_questions),
      hsh, ?_⟩
    simp only [run_quiz_build_queue]
    rw [hre, List.length_append]
  · simp only [run_quiz_build_queue]
    rw [hre, List.length_take, List.length_append, hsh.length_eq]
    omega

/-- C2 witness: bank [Q1,Q2,Q3,Q4], missed [Q2], mastered [Q4], N = 3, with
the reversing shuffle; the queue is [Q2,Q3,Q1] — it starts with Q2, holds Q1
and Q3 in some order, never Q4, and has length exactly 3. -/
theorem run_quiz_queue_structure_witness :
    (List.reverse (eligible_remainder [("t", [1, 2, 3, 4])] [4] [2])).Perm
      (eligible_remainder [("t", [1, 2, 3, 4])] ([4] : List Nat) [2]) ∧
    run_quiz_build_queue List.reverse 3 [("t", [1, 2, 3, 4])] [4] [2] =
      [2, 3, 1] ∧
    ((∃ r : List Nat,
      r.Perm (eligible_remainder [("t", [1, 2, 3, 4])] [4] [2]) ∧
      run_quiz_build_queue List.reverse 3 [("t", [1, 2, 3, 4])] [4] [2] =
        (filtered_missed [("t", [1, 2, 3, 4])] [2] ++ r).take
          (min 3 ((filtered_missed [("t", [1, 2, 3, 4])] [2]).length +
            r.length))) ∧
    (run_quiz_build_queue List.reverse 3 [("t", [1, 2, 3, 4])]
        ([4] : List Nat) [2]).length =
      min 3 ((filtered_missed [("t", [1, 2, 3, 4])] ([2] : List Nat)).length +
        (eligible_remainder [("t", [1, 2, 3, 4])] ([4] : List Nat)
          [2]).length)) :=
  ⟨by decide, by decide,
   run_quiz_queue_structure Nat List.reverse 3 [("t", [1, 2, 3, 4])] [4] [2]
     (by decide)⟩

section SanityChecks

example : normalize_mc_answer_to_letters ["Foo", "Bar", "Baz"]
    (PyVal.scalar (PyScalar.str "B")) = {'B'} := by decide

example : normalize_mc_answer_to_letters ["Alpha", "Beta"]
    (PyVal.scalar (PyScalar.str "Alpha")) = {'A'} := by decide

example : normalize_mc_answer_to_letters ["Alpha", "Beta"]
    (PyVal.scalar (PyScalar.str "zzz")) = ∅ := by decide

example : normalize_mc_answer_to_letters ["Alpha", "Beta"]
    (PyVal.scalar PyScalar.none) = ∅ := by decide

example : format_correct_answer ["Foo", "Bar", "Baz"] {'B'} = "B. Bar" := by
  rw [format_correct_answer]
  simp only [Finset.sort_singleton]
  decide

example : is_mc_selection_correct ["Foo", "Bar", "Baz"]
    (PyVal.scalar (PyScalar.str "B")) {'B'} = some (true, "B. Bar") := by
  have h : normalize_mc_answer_to_letters ["Foo", "Bar", "Baz"]
      (PyVal.scalar (PyScalar.str "B")) = {'B'} := by decide
  rw [is_mc_selection_correct, h, if_pos (by decide), format_correct_answer]
  simp only [Finset.sort_singleton]
  decide

example : is_mc_selection_correct ["Foo", "Bar", "Baz"]
    (PyVal.scalar (PyScalar.str "B")) {'A'} = some (false, "B. Bar") := by
  have h : normalize_mc_answer_to_letters ["Foo", "Bar", "Baz"]
      (PyVal.scalar (PyScalar.str "B")) = {'B'} := by decide
  rw [is_mc_selection_correct, h, if_pos (by decide), format_correct_answer]
  simp only [Finset.sort_singleton]
  decide

example : is_mc_selection_correct ["Foo", "Bar"]
    (PyVal.scalar (PyScalar.str "zzz")) ∅ = some (false, "zzz") := by decide

example : is_mc_selection_correct ["Foo"]
    (PyVal.scalar PyScalar.none) ∅ = Option.none := by decide

end SanityChecks
